import Mathlib

/-!
Shallow embedding of `rally/task/engine.py` (task execution engine):
the `ResultConsumer` result-consumption loop and scope exit, the
`TaskEngine` run/validate state machines, and the `TaskConfig` /
`SubTask` / `Workload` task-definition model, together with theorems
about the behaviour of these definitions.

Conventions used throughout:
* Python floats (timestamps, durations) are modelled as rationals `ℚ`;
  the float `+inf` initial value of `load_started_at` is modelled as
  `Option ℚ` with `none` standing for `+inf`.
* Stateful code is modelled by explicit state passing; observable side
  effects (calls to `runner.abort()`, `task.update_status(...)`,
  `workload.add_workload_data(...)`, ...) are recorded in the state as
  counters or logs.
* Python exceptions are modelled with `Except`/`Option` values.
-/

namespace Rally

/-- Task statuses from `rally.consts.TaskStatus` that `engine.py` uses
(the `consts` module itself is outside the embedded file; the status
names are taken verbatim from their uses in `engine.py`), plus `INIT`
as the status a task holds before the engine touches it. -/
inductive TaskStatus where
  | INIT
  | VALIDATING
  | RUNNING
  | SOFT_ABORTING
  | ABORTING
  | ABORTED
  | FINISHED
  | CRASHED
deriving DecidableEq, Repr

/-- Subtask statuses from `rally.consts.SubtaskStatus` used in
`engine.py` (`FINISHED`, `ABORTED`, `CRASHED`), plus `RUNNING` as the
status a freshly added subtask holds. -/
inductive SubtaskStatus where
  | RUNNING
  | FINISHED
  | ABORTED
  | CRASHED
deriving DecidableEq, Repr

/-- One iteration result record produced by a runner: the fields of the
record that `ResultConsumer._consume_results` reads (`r["timestamp"]`,
`r["duration"]`). -/
structure IterationResult where
  timestamp : ℚ
  duration : ℚ
deriving DecidableEq, Repr

/-- The comparison key of `results.sort(key=lambda x: x["timestamp"])`:
Python's stable `list.sort` by the `timestamp` key is modelled by the
stable `List.mergeSort` with this relation. -/
def tsLe (a b : IterationResult) : Bool :=
  a.timestamp ≤ b.timestamp

/-- The mutable state of a `ResultConsumer` as far as
`_consume_results` and `__exit__` touch it, plus logs of the
observable effects:
`runner_abort_calls` counts calls to `self.runner.abort()` made by the
result loop, `sla_abort_marks` counts calls to
`self.sla_checker.set_aborted_on_sla()`, `soft_aborting_updates`
counts calls to `self.task.update_status(SOFT_ABORTING)`, and `chunks`
logs the `add_workload_data(index, {"raw": chunk})` calls. -/
structure ConsumerState where
  results : List IterationResult
  load_started_at : Option ℚ
  load_finished_at : ℚ
  workload_data_count : ℕ
  task_aborted : Bool
  runner_abort_calls : ℕ
  sla_abort_marks : ℕ
  soft_aborting_updates : ℕ
  chunks : List (ℕ × List IterationResult)
deriving DecidableEq, Repr

/-- `ResultConsumer.__init__` state: empty buffer,
`load_started_at = float("inf")`, `load_finished_at = 0`,
`workload_data_count = 0`; `task_aborted = False` is the local flag of
`_consume_results`. -/
def initConsumerState : ConsumerState :=
  { results := []
    load_started_at := none
    load_finished_at := 0
    workload_data_count := 0
    task_aborted := false
    runner_abort_calls := 0
    sla_abort_marks := 0
    soft_aborting_updates := 0
    chunks := [] }

/-- The per-result body of `_consume_results` (engine.py lines
106-119): update `load_started_at`/`load_finished_at`, feed the result
to the SLA checker obtaining `success`, and on the first SLA failure
under `abort_on_sla_failure` mark the checker, abort the runner, set
SOFT_ABORTING and latch `task_aborted`.  The SLA checker is external,
so its verdict `success` is supplied alongside the result. -/
def consumeOneResult (abort_on_sla_failure : Bool) (s : ConsumerState)
    (r : IterationResult) (success : Bool) : ConsumerState :=
  let s := { s with
    load_started_at := some (match s.load_started_at with
      | none => r.timestamp
      | some a => min r.timestamp a)
    load_finished_at := max (r.duration + r.timestamp) s.load_finished_at }
  if abort_on_sla_failure && !success && !s.task_aborted then
    { s with
      sla_abort_marks := s.sla_abort_marks + 1
      runner_abort_calls := s.runner_abort_calls + 1
      soft_aborting_updates := s.soft_aborting_updates + 1
      task_aborted := true }
  else s

/-- The chunk-saving loop of `_consume_results` (engine.py lines
121-129): while the buffer holds at least `chunk_size` results, slice
off the oldest `chunk_size`, sort the slice by timestamp, persist it
under the current `workload_data_count` and advance the count.
`chunk_size` is `CONF.raw_result_chunk_size`, declared with `min=1`;
the guard `1 ≤ chunk_size` records that configuration bound (the
Python loop is only ever run with such a value). -/
def saveResultChunks (chunk_size : ℕ) (s : ConsumerState) : ConsumerState :=
  if h : 1 ≤ chunk_size ∧ chunk_size ≤ s.results.length then
    saveResultChunks chunk_size
      { s with
        results := s.results.drop chunk_size
        chunks := s.chunks ++
          [(s.workload_data_count, (s.results.take chunk_size).mergeSort tsLe)]
        workload_data_count := s.workload_data_count + 1 }
  else s
termination_by s.results.length
decreasing_by
  simp only [List.length_drop]
  omega

/-- One pass of the outer loop of `_consume_results` for one popped
batch (engine.py lines 103-129): extend the buffer with the batch,
run the per-result body for each result in order (each paired with the
SLA verdict the external checker returns for it), then run the
chunk-saving loop. -/
def consumeBatch (abort_on_sla_failure : Bool) (chunk_size : ℕ)
    (s : ConsumerState) (batch : List (IterationResult × Bool)) : ConsumerState :=
  let s := { s with results := s.results ++ batch.map Prod.fst }
  let s := batch.foldl
    (fun acc rv => consumeOneResult abort_on_sla_failure acc rv.1 rv.2) s
  saveResultChunks chunk_size s

/-- The whole `_consume_results` loop over the sequence of batches the
runner's `result_queue` yields before `is_done` is observed set:
the loop consumes them in order and then terminates. -/
def consumeResults (abort_on_sla_failure : Bool) (chunk_size : ℕ)
    (batches : List (List (IterationResult × Bool))) : ConsumerState :=
  batches.foldl (consumeBatch abort_on_sla_failure chunk_size) initConsumerState

/-- Float subtraction `load_finished_at - load_started_at` clamped by
`max(·, 0)` (engine.py line 158), with `load_started_at = +inf`
(`none`) giving `-inf`, clamped to `0`. -/
def clampedDuration (finished : ℚ) (started : Option ℚ) : ℚ :=
  match started with
  | none => 0
  | some a => max (finished - a) 0

/-- The observable outcome of `ResultConsumer.__exit__`: the state
after the final flush, the computed `load_duration`, the flags the
exit records on the SLA checker, and the (always performed)
`workload.set_results` call. -/
structure ExitOutcome where
  state : ConsumerState
  load_duration : ℚ
  sla_unexpected_failure : Bool
  sla_aborted_manually : Bool
  set_results_calls : ℕ
deriving DecidableEq, Repr

/-- `ResultConsumer.__exit__` (engine.py lines 145-183), after the
threads have been joined: record an unexpected failure iff the scope
raised (`exc_type`), record a manual abort iff the externally observed
task status is ABORTED, compute `load_duration`, flush the buffered
results — sorted in place by timestamp — as a final chunk only when
the buffer is non-empty, and always call `set_results`. -/
def consumerExit (exc_raised : Bool) (observed_status : TaskStatus)
    (s : ConsumerState) : ExitOutcome :=
  let load_duration := clampedDuration s.load_finished_at s.load_started_at
  let s :=
    if s.results.isEmpty then s
    else { s with
      results := s.results.mergeSort tsLe
      chunks := s.chunks ++ [(s.workload_data_count, s.results.mergeSort tsLe)] }
  { state := s
    load_duration := load_duration
    sla_unexpected_failure := exc_raised
    sla_aborted_manually := observed_status = TaskStatus.ABORTED
    set_results_calls := 1 }

/-- The consecutive `chunk_size`-slices of an arrival-ordered result
sequence that the chunk-saving loop persists (unsorted, in slicing
order); the specification-side mirror of `saveResultChunks`. -/
def chunkBlocks (chunk_size : ℕ) (l : List IterationResult) :
    List (List IterationResult) :=
  if h : 1 ≤ chunk_size ∧ chunk_size ≤ l.length then
    l.take chunk_size :: chunkBlocks chunk_size (l.drop chunk_size)
  else []
termination_by l.length
decreasing_by
  simp only [List.length_drop]
  omega

/-- What remains buffered after the chunk-saving loop has consumed all
full `chunk_size`-slices of an arrival-ordered result sequence. -/
def chunkRemainder (chunk_size : ℕ) (l : List IterationResult) :
    List IterationResult :=
  if h : 1 ≤ chunk_size ∧ chunk_size ≤ l.length then
    chunkRemainder chunk_size (l.drop chunk_size)
  else l
termination_by l.length
decreasing_by
  simp only [List.length_drop]
  omega

/-- `ResultConsumer.is_task_in_aborting_status` (engine.py lines
185-197): `stages = [ABORTING, ABORTED]`, extended with
`SOFT_ABORTING` when `check_soft` (the default `True`) holds. -/
def is_task_in_aborting_status (status : TaskStatus)
    (check_soft : Bool := true) : Bool :=
  status ∈ ([TaskStatus.ABORTING, TaskStatus.ABORTED] ++
    if check_soft then [TaskStatus.SOFT_ABORTING] else [])

/-- Exceptions that can escape `TaskEngine._run_workload`: the
`TaskAborted` sentinel, or any other exception (tagged with an
identity so that re-raising "the same exception" is expressible). -/
inductive Exc where
  | taskAborted
  | other (id : ℕ)
deriving DecidableEq, Repr

/-- Abstraction of what one workload execution does, as observable by
`TaskEngine._run_workload`:
* `ok` — the runner invocation returns normally;
* `runnerRaises id` — an exception with identity `id` is raised inside
  the `try` block around the `ResultConsumer`/`ContextManager` scopes
  (engine.py lines 508-513) and is caught at line 514;
* `setupRaises id` — an exception with identity `id` is raised before
  the `try` block (`add_workload`, `_get_runner`, `_prepare_context`,
  engine.py lines 501-507) and escapes `_run_workload`;
* `okSetStatus st` — the runner invocation returns normally, and
  meanwhile a concurrent actor (the abort watcher thread setting
  ABORTED, or the result loop setting SOFT_ABORTING, or an external
  operator) has written task status `st` to the shared store. -/
inductive WorkloadOutcome where
  | ok
  | runnerRaises (id : ℕ)
  | setupRaises (id : ℕ)
  | okSetStatus (st : TaskStatus)
deriving DecidableEq, Repr

/-- The engine-visible state: the task's status in the shared store,
the statuses of the subtasks registered so far (in registration
order), how many workload bodies were actually started, and the
identities of the workload-level exceptions that were logged and
swallowed at engine.py line 514. -/
structure EngineState where
  taskStatus : TaskStatus
  subtaskStatuses : List SubtaskStatus
  workloadsStarted : ℕ
  swallowedLogs : List ℕ
deriving DecidableEq, Repr

/-- Engine state before `run()` is called. -/
def initEngineState : EngineState :=
  { taskStatus := TaskStatus.INIT
    subtaskStatuses := []
    workloadsStarted := 0
    swallowedLogs := [] }

/-- `TaskEngine._run_workload` (engine.py lines 497-517): the
pre-flight check `is_task_in_aborting_status(task["uuid"])` (with its
default `check_soft=True`) raises `TaskAborted` before the workload is
started; otherwise the workload body runs, a `setupRaises` exception
escapes, and a `runnerRaises` exception is logged and swallowed. -/
def run_workload (s : EngineState) (w : WorkloadOutcome) :
    EngineState × Option Exc :=
  if is_task_in_aborting_status s.taskStatus then
    (s, some Exc.taskAborted)
  else
    match w with
    | WorkloadOutcome.setupRaises id => (s, some (Exc.other id))
    | WorkloadOutcome.ok =>
        ({ s with workloadsStarted := s.workloadsStarted + 1 }, none)
    | WorkloadOutcome.okSetStatus st =>
        ({ s with workloadsStarted := s.workloadsStarted + 1
                  taskStatus := st }, none)
    | WorkloadOutcome.runnerRaises id =>
        ({ s with workloadsStarted := s.workloadsStarted + 1
                  swallowedLogs := s.swallowedLogs ++ [id] }, none)

/-- Overwrite the status of the most recently registered subtask
(`subtask_obj.update_status(...)`). -/
def setLastSubtask (s : EngineState) (st : SubtaskStatus) : EngineState :=
  { s with subtaskStatuses := s.subtaskStatuses.dropLast ++ [st] }

/-- The `for workload in subtask.workloads` loop of `_run_subtask`
(engine.py lines 480-481): run workloads in order, stopping at the
first escaping exception. -/
def runWorkloads (s : EngineState) (ws : List WorkloadOutcome) :
    EngineState × Option Exc :=
  match ws with
  | [] => (s, none)
  | w :: rest =>
    let r := run_workload s w
    match r.2 with
    | none => runWorkloads r.1 rest
    | some e => (r.1, some e)

/-- The `try/except/else` dispatch of `_run_subtask` on the outcome of
its workload loop (engine.py lines 482-495): on `TaskAborted` mark the
subtask ABORTED and re-raise; on any other exception mark the subtask
CRASHED, mark the task CRASHED and re-raise; otherwise mark the
subtask FINISHED. -/
def subtaskOutcome (r : EngineState × Option Exc) :
    EngineState × Option Exc :=
  match r.2 with
  | none => (setLastSubtask r.1 SubtaskStatus.FINISHED, none)
  | some Exc.taskAborted =>
      (setLastSubtask r.1 SubtaskStatus.ABORTED, some Exc.taskAborted)
  | some (Exc.other id) =>
      ({ setLastSubtask r.1 SubtaskStatus.CRASHED with
          taskStatus := TaskStatus.CRASHED }, some (Exc.other id))

/-- `TaskEngine._run_subtask` (engine.py lines 475-495): register the
subtask (initially RUNNING), run its workloads, dispatch on the
outcome. -/
def run_subtask (s : EngineState) (ws : List WorkloadOutcome) :
    EngineState × Option Exc :=
  subtaskOutcome (runWorkloads
    { s with subtaskStatuses :=
        s.subtaskStatuses ++ [SubtaskStatus.RUNNING] } ws)

/-- The `for subtask in self.config.subtasks` loop of `run()`
(engine.py lines 465-466): run subtasks in order, stopping at the
first escaping exception. -/
def runSubtasks (s : EngineState) (subs : List (List WorkloadOutcome)) :
    EngineState × Option Exc :=
  match subs with
  | [] => (s, none)
  | ws :: rest =>
    let r := run_subtask s ws
    match r.2 with
    | none => runSubtasks r.1 rest
    | some e => (r.1, some e)

/-- The `try/except/else` dispatch of `run()` on the outcome of its
subtask loop (engine.py lines 464-473): catch `TaskAborted` and set
ABORTED; on normal completion set FINISHED unless the observed status
is already ABORTED; any other exception propagates to the caller. -/
def engineOutcome (r : EngineState × Option Exc) :
    EngineState × Option Exc :=
  match r.2 with
  | some Exc.taskAborted =>
      ({ r.1 with taskStatus := TaskStatus.ABORTED }, none)
  | some (Exc.other id) => (r.1, some (Exc.other id))
  | none =>
      if r.1.taskStatus ≠ TaskStatus.ABORTED then
        ({ r.1 with taskStatus := TaskStatus.FINISHED }, none)
      else (r.1, none)

/-- `TaskEngine.run` (engine.py lines 454-473): set RUNNING, run the
subtasks in order, dispatch on the outcome. -/
def runEngine (s : EngineState) (subs : List (List WorkloadOutcome)) :
    EngineState × Option Exc :=
  engineOutcome (runSubtasks { s with taskStatus := TaskStatus.RUNNING } subs)

/-- A Python exception as `TaskEngine.validate` observes it:
`type(e).__name__`, `str(e)`, and `traceback.format_exc()`. -/
structure PyExc where
  name : String
  msg : String
  trace : String
deriving DecidableEq, Repr

/-- `json.dumps` applied to the traceback string (engine.py lines
416-417), modelled as JSON string quoting (escaping elided: the
claims only need that the serialized trace is recorded). -/
def serializeTrace (t : String) : String :=
  "\"" ++ t ++ "\""

/-- Observable events of `TaskEngine.validate`: a status update, the
attempt of the n-th validation pass, and a `task.set_failed` call. -/
inductive VEvent where
  | statusSet (st : TaskStatus)
  | passAttempt (n : ℕ)
  | setFailed (kind msg trace : String)
deriving DecidableEq, Repr

/-- `TaskEngine.validate` (engine.py lines 407-422).  The three
validation passes are external (they call into plugin registries and
live deployments); each is abstracted by its outcome: `none` if it
returns, `some e` if it raises `e`.  The model returns the event
trace and the message of the raised `InvalidTaskException`, if any. -/
def validateEngine (p1 p2 p3 : Option PyExc) :
    List VEvent × Option String :=
  let evs := [VEvent.statusSet TaskStatus.VALIDATING, VEvent.passAttempt 1]
  match p1 with
  | some e =>
      (evs ++ [VEvent.setFailed e.name e.msg (serializeTrace e.trace)],
       some e.msg)
  | none =>
    let evs := evs ++ [VEvent.passAttempt 2]
    match p2 with
    | some e =>
        (evs ++ [VEvent.setFailed e.name e.msg (serializeTrace e.trace)],
         some e.msg)
    | none =>
      let evs := evs ++ [VEvent.passAttempt 3]
      match p3 with
      | some e =>
          (evs ++ [VEvent.setFailed e.name e.msg (serializeTrace e.trace)],
           some e.msg)
      | none => (evs, none)

/-- The first exception raised among the three sequential validation
passes (later passes do not run once an earlier one raised). -/
def firstFailure (p1 p2 p3 : Option PyExc) : Option PyExc :=
  match p1 with
  | some e => some e
  | none =>
    match p2 with
    | some e => some e
    | none => p3

/-- A JSON-like Python value, as found in a parsed task document.
Numbers are rationals (Python ints and floats); `bool` is kept
separate because Python equality identifies `True` with `1`. -/
inductive JVal where
  | null
  | bool (b : Bool)
  | num (q : ℚ)
  | str (s : String)
  | arr (l : List JVal)
  | obj (kvs : List (String × JVal))

/-- Python `d.get(k, default)` on an object modelled as an association
list with unique keys. -/
def jgetD (kvs : List (String × JVal)) (k : String) (d : JVal) : JVal :=
  (List.lookup k kvs).getD d

/-- Python `d[k] = v` on an object modelled as an association list:
overwrite in place when the key exists, append otherwise. -/
def setKey (kvs : List (String × JVal)) (k : String) (v : JVal) :
    List (String × JVal) :=
  if kvs.any (fun p => p.1 == k) then
    kvs.map (fun p => if p.1 == k then (k, v) else p)
  else kvs ++ [(k, v)]

/-- View a `JVal` as an object (schema-validated positions are always
objects where this is used). -/
def asObj : JVal → List (String × JVal)
  | JVal.obj kvs => kvs
  | _ => []

/-- View a `JVal` as an array (schema-validated positions are always
arrays where this is used). -/
def asArr : JVal → List JVal
  | JVal.arr l => l
  | _ => []

/-- View a `JVal` as a string (schema-validated positions are always
strings where this is used). -/
def asStr : JVal → String
  | JVal.str s => s
  | _ => ""

/-- The `Workload` object of engine.py lines 725-745 (the fields its
constructor sets). -/
structure Workload where
  name : String
  description : String
  runner : JVal
  sla : JVal
  hooks : JVal
  context : JVal
  args : JVal
  pos : ℕ

/-- `Workload.__init__` (engine.py lines 729-745).  `getInfoTitle`
abstracts the external scenario registry lookup
`scenario.Scenario.get(name).get_info()["title"]`: `none` models the
`PluginNotFound`/`MultipleMatchesFound` exceptions, which the
constructor swallows, leaving the empty description in place. -/
def mkWorkload (getInfoTitle : String → Option String)
    (config : List (String × JVal)) (pos : ℕ) : Workload :=
  let name := asStr (jgetD config "name" JVal.null)
  let description := asStr (jgetD config "description" (JVal.str ""))
  let description :=
    if description = "" then
      match getInfoTitle name with
      | some t => t
      | none => description
    else description
  { name := name
    description := description
    runner := jgetD config "runner" (JVal.obj [])
    sla := jgetD config "sla" (JVal.obj [])
    hooks := jgetD config "hooks" (JVal.arr [])
    context := jgetD config "context" (JVal.obj [])
    args := jgetD config "args" (JVal.obj [])
    pos := pos }

/-- The `SubTask` object of engine.py lines 700-715 (the fields its
constructor sets). -/
structure SubTask where
  title : JVal
  tags : JVal
  group : JVal
  description : JVal
  workloads : List Workload
  context : JVal

/-- `SubTask.__init__` (engine.py lines 704-715): `config["title"]` is
required (the schema and both construction sites guarantee it), the
workloads are built from `enumerate(config["workloads"])`. -/
def mkSubTask (getInfoTitle : String → Option String)
    (config : List (String × JVal)) : SubTask :=
  { title := jgetD config "title" JVal.null
    tags := jgetD config "tags" (JVal.arr [])
    group := jgetD config "group" JVal.null
    description := jgetD config "description" JVal.null
    workloads := (asArr (jgetD config "workloads" (JVal.arr []))).enum.map
      (fun pw => mkWorkload getInfoTitle (asObj pw.2) pw.1)
    context := jgetD config "context" (JVal.obj []) }

/-- Python `==` between a task-document value and an int key of
`TaskConfig.CONFIG_SCHEMAS`; Python identifies `True` with `1` and
`False` with `0`, and `2.0` with `2`. -/
def pyEqInt (v : JVal) (m : ℤ) : Bool :=
  match v with
  | JVal.num q => q == (m : ℚ)
  | JVal.bool b => (if b then (1 : ℤ) else 0) == m
  | _ => false

/-- Python `str(...)` of a task-document value, as used when
formatting the unsupported-version message. -/
def pyStr : JVal → String
  | JVal.null => "None"
  | JVal.bool b => if b then "True" else "False"
  | JVal.num q => if q.den = 1 then toString q.num else toString q
  | JVal.str s => s
  | JVal.arr _ => "[...]"
  | JVal.obj _ => "{...}"

/-- `TaskConfig._get_version` (engine.py lines 669-671):
`config.get("version", 1)`. -/
def _get_version (config : List (String × JVal)) : JVal :=
  (List.lookup "version" config).getD (JVal.num 1)

/-- The message of `TaskConfig._validate_version` (engine.py lines
673-678); `allowed = ", ".join(str(k) for k in CONFIG_SCHEMAS)` is
`"1, 2"` since `CONFIG_SCHEMAS = {1: ..., 2: ...}`. -/
def versionErrMsg (v : JVal) : String :=
  "Task configuration version " ++ pyStr v ++
    " is not supported. Supported versions: 1, 2"

/-- Exceptions that `TaskConfig.__init__` raises. -/
inductive PyError where
  | plainExc (msg : String)
  | invalidTask (msg : String)
deriving DecidableEq, Repr

/-- Milestones of `TaskConfig.__init__`, in execution order. -/
inductive InitEvent where
  | versionDetermined (v : JVal)
  | versionChecked
  | schemaValidated
  | subtasksBuilt

/-- `TaskConfig._make_subtasks` (engine.py lines 686-697): version 2
maps `config["subtasks"]` through `SubTask`; version 1 turns every
(scenario name, variant) pair of the flat mapping into its own
single-workload `SubTask` titled with the scenario name, the variant
config deep-copied and given `"name" = name`. -/
def _make_subtasks (getInfoTitle : String → Option String) (version : ℤ)
    (config : List (String × JVal)) : List SubTask :=
  if version = 2 then
    (asArr (jgetD config "subtasks" (JVal.arr []))).map
      (fun s => mkSubTask getInfoTitle (asObj s))
  else
    config.flatMap (fun nv =>
      (asArr nv.2).map (fun v1_workload =>
        mkSubTask getInfoTitle
          [("title", JVal.str nv.1),
           ("workloads", JVal.arr
             [JVal.obj (setKey (asObj v1_workload) "name" (JVal.str nv.1))])]))

/-- The fields `TaskConfig.__init__` computes on success. -/
structure TaskConfigState where
  version : ℤ
  title : JVal
  tags : JVal
  description : Option JVal
  subtasks : List SubTask

/-- `TaskConfig.__init__` (engine.py lines 644-667).  `schemaCheck v c`
abstracts `jsonschema.validate(c, CONFIG_SCHEMAS[v])`: `none` if the
document validates, `some msg` for the validator's diagnostic (wrapped
into `InvalidTaskException` by `_validate_json`).  `none` input models
the Python `None` config.  The event trace records which phases ran:
a version failure happens after the version is read and before any
schema validation. -/
def taskConfigInit (schemaCheck : ℤ → List (String × JVal) → Option String)
    (getInfoTitle : String → Option String)
    (config : Option (List (String × JVal))) :
    List InitEvent × Except PyError TaskConfigState :=
  match config with
  | none => ([], Except.error (PyError.plainExc "Input task is empty"))
  | some cfg =>
    let v := _get_version cfg
    let evs := [InitEvent.versionDetermined v]
    if pyEqInt v 1 || pyEqInt v 2 then
      let version : ℤ := if pyEqInt v 1 then 1 else 2
      let evs := evs ++ [InitEvent.versionChecked]
      match schemaCheck version cfg with
      | some msg => (evs, Except.error (PyError.invalidTask msg))
      | none =>
        let evs := evs ++ [InitEvent.schemaValidated]
        (evs ++ [InitEvent.subtasksBuilt],
         Except.ok
           { version := version
             title := jgetD cfg "title" (JVal.str "Task")
             tags := jgetD cfg "tags" (JVal.arr [])
             description := List.lookup "description" cfg
             subtasks := _make_subtasks getInfoTitle version cfg })
    else
      (evs, Except.error (PyError.invalidTask (versionErrMsg v)))

/-- The latch invariant of `_consume_results`: each of the three
abort effects has happened exactly as often as the `task_aborted`
latch says (never before it is set, exactly once after). -/
def abortLatchInv (s : ConsumerState) : Prop :=
  s.runner_abort_calls = (if s.task_aborted then 1 else 0) ∧
  s.sla_abort_marks = (if s.task_aborted then 1 else 0) ∧
  s.soft_aborting_updates = (if s.task_aborted then 1 else 0)

theorem saveResultChunks_preserves (chunk_size : ℕ) (s : ConsumerState) :
    (saveResultChunks chunk_size s).task_aborted = s.task_aborted ∧
    (saveResultChunks chunk_size s).runner_abort_calls = s.runner_abort_calls ∧
    (saveResultChunks chunk_size s).sla_abort_marks = s.sla_abort_marks ∧
    (saveResultChunks chunk_size s).soft_aborting_updates =
      s.soft_aborting_updates ∧
    (saveResultChunks chunk_size s).load_started_at = s.load_started_at ∧
    (saveResultChunks chunk_size s).load_finished_at = s.load_finished_at := by
  induction s using saveResultChunks.induct chunk_size with
  | case1 s h ih =>
    rw [saveResultChunks, dif_pos h]
    exact ih
  | case2 s h =>
    rw [saveResultChunks, dif_neg h]
    exact ⟨rfl, rfl, rfl, rfl, rfl, rfl⟩

theorem consumeOneResult_latch (s : ConsumerState) (r : IterationResult)
    (v : Bool) (h : abortLatchInv s) :
    abortLatchInv (consumeOneResult true s r v) := by
  obtain ⟨h1, h2, h3⟩ := h
  unfold consumeOneResult abortLatchInv
  cases hv : v <;> cases ha : s.task_aborted <;>
    simp_all [abortLatchInv]

theorem consumeOneResult_aborted_mono (a : Bool) (s : ConsumerState)
    (r : IterationResult) (v : Bool) (h : s.task_aborted = true) :
    (consumeOneResult a s r v).task_aborted = true := by
  unfold consumeOneResult
  simp [h]

theorem consumeOneResult_failure (s : ConsumerState) (r : IterationResult)
    (h : s.task_aborted = true ∨ True) :
    ∀ v, v = false → (consumeOneResult true s r v).task_aborted = true := by
  intro v hv
  subst hv
  unfold consumeOneResult
  cases ha : s.task_aborted <;> simp [ha]

theorem batchFold_latch (batch : List (IterationResult × Bool))
    (s : ConsumerState) (h : abortLatchInv s) :
    abortLatchInv (batch.foldl
      (fun acc rv => consumeOneResult true acc rv.1 rv.2) s) := by
  induction batch generalizing s with
  | nil => exact h
  | cons rv rest ih => exact ih _ (consumeOneResult_latch s rv.1 rv.2 h)

theorem batchFold_aborted_mono (a : Bool)
    (batch : List (IterationResult × Bool)) (s : ConsumerState)
    (h : s.task_aborted = true) :
    (batch.foldl (fun acc rv => consumeOneResult a acc rv.1 rv.2)
      s).task_aborted = true := by
  induction batch generalizing s with
  | nil => exact h
  | cons rv rest ih =>
    exact ih _ (consumeOneResult_aborted_mono a s rv.1 rv.2 h)

theorem batchFold_failure (batch : List (IterationResult × Bool))
    (s : ConsumerState) (h : ∃ rv ∈ batch, rv.2 = false) :
    (batch.foldl (fun acc rv => consumeOneResult true acc rv.1 rv.2)
      s).task_aborted = true := by
  induction batch generalizing s with
  | nil => simp at h
  | cons rv rest ih =>
    obtain ⟨x, hx, hxf⟩ := h
    rcases List.mem_cons.mp hx with rfl | hx
    · exact batchFold_aborted_mono true rest _
        (consumeOneResult_failure s x.1 (Or.inr trivial) x.2 hxf)
    · exact ih _ ⟨x, hx, hxf⟩

theorem consumeBatch_latch (chunk_size : ℕ)
    (batch : List (IterationResult × Bool)) (s : ConsumerState)
    (h : abortLatchInv s) :
    abortLatchInv (consumeBatch true chunk_size s batch) := by
  unfold consumeBatch
  have hp := saveResultChunks_preserves chunk_size
    ((batch.foldl (fun acc rv => consumeOneResult true acc rv.1 rv.2)
      { s with results := s.results ++ batch.map Prod.fst }))
  have hl := batchFold_latch batch
    { s with results := s.results ++ batch.map Prod.fst } h
  unfold abortLatchInv at hl ⊢
  rw [hp.1, hp.2.1, hp.2.2.1, hp.2.2.2.1]
  exact hl

theorem consumeBatch_aborted_mono (a : Bool) (chunk_size : ℕ)
    (batch : List (IterationResult × Bool)) (s : ConsumerState)
    (h : s.task_aborted = true) :
    (consumeBatch a chunk_size s batch).task_aborted = true := by
  unfold consumeBatch
  rw [(saveResultChunks_preserves chunk_size _).1]
  exact batchFold_aborted_mono a batch _ h

theorem consumeBatch_failure (chunk_size : ℕ)
    (batch : List (IterationResult × Bool)) (s : ConsumerState)
    (h : ∃ rv ∈ batch, rv.2 = false) :
    (consumeBatch true chunk_size s batch).task_aborted = true := by
  unfold consumeBatch
  rw [(saveResultChunks_preserves chunk_size _).1]
  exact batchFold_failure batch _ h

theorem batchesFold_latch (chunk_size : ℕ)
    (batches : List (List (IterationResult × Bool))) (s : ConsumerState)
    (h : abortLatchInv s) :
    abortLatchInv (batches.foldl (consumeBatch true chunk_size) s) := by
  induction batches generalizing s with
  | nil => exact h
  | cons b rest ih => exact ih _ (consumeBatch_latch chunk_size b s h)

theorem batchesFold_aborted_mono (a : Bool) (chunk_size : ℕ)
    (batches : List (List (IterationResult × Bool))) (s : ConsumerState)
    (h : s.task_aborted = true) :
    (batches.foldl (consumeBatch a chunk_size) s).task_aborted = true := by
  induction batches generalizing s with
  | nil => exact h
  | cons b rest ih => exact ih _ (consumeBatch_aborted_mono a chunk_size b s h)

theorem batchesFold_failure (chunk_size : ℕ)
    (batches : List (List (IterationResult × Bool))) (s : ConsumerState)
    (h : ∃ b ∈ batches, ∃ rv ∈ b, rv.2 = false) :
    (batches.foldl (consumeBatch true chunk_size) s).task_aborted = true := by
  induction batches generalizing s with
  | nil => simp at h
  | cons b rest ih =>
    obtain ⟨x, hx, hxf⟩ := h
    rcases List.mem_cons.mp hx with rfl | hx
    · exact batchesFold_aborted_mono true chunk_size rest _
        (consumeBatch_failure chunk_size x s hxf)
    · exact ih _ ⟨x, hx, hxf⟩

/-- C1: in the result-consumption loop with `abort_on_sla_failure`
enabled, whenever the SLA checker reports failure on some iteration,
`runner.abort()` is called exactly once, `set_aborted_on_sla()` is
called exactly once and the task status is set to SOFT_ABORTING
exactly once, no matter how many later failing iterations arrive. -/
theorem sla_abort_triggered_exactly_once (chunk_size : ℕ)
    (batches : List (List (IterationResult × Bool)))
    (h : ∃ b ∈ batches, ∃ rv ∈ b, rv.2 = false) :
    (consumeResults true chunk_size batches).runner_abort_calls = 1 ∧
    (consumeResults true chunk_size batches).sla_abort_marks = 1 ∧
    (consumeResults true chunk_size batches).soft_aborting_updates = 1 := by
  have hinv : abortLatchInv (consumeResults true chunk_size batches) :=
    batchesFold_latch chunk_size batches initConsumerState
      ⟨rfl, rfl, rfl⟩
  have hab : (consumeResults true chunk_size batches).task_aborted = true :=
    batchesFold_failure chunk_size batches initConsumerState h
  obtain ⟨h1, h2, h3⟩ := hinv
  rw [hab] at h1 h2 h3
  exact ⟨h1, h2, h3⟩

/-- Witness for C1 at a concrete input: a single batch whose second
iteration fails the SLA check and whose third also fails; the abort
effects all happen exactly once. -/
theorem sla_abort_triggered_exactly_once_witness :
    (consumeResults true 2
      [[(⟨1, 2⟩, true), (⟨0, 5⟩, false), (⟨3, 1⟩, false)]]).runner_abort_calls
        = 1 ∧
    (consumeResults true 2
      [[(⟨1, 2⟩, true), (⟨0, 5⟩, false), (⟨3, 1⟩, false)]]).sla_abort_marks
        = 1 ∧
    (consumeResults true 2
      [[(⟨1, 2⟩, true), (⟨0, 5⟩, false), (⟨3, 1⟩, false)]]).soft_aborting_updates
        = 1 :=
  sla_abort_triggered_exactly_once 2
    [[(⟨1, 2⟩, true), (⟨0, 5⟩, false), (⟨3, 1⟩, false)]]
    (by decide)

/-- The arrival-ordered sequence of iteration results carried by a
sequence of batches. -/
def arrivals (batches : List (List (IterationResult × Bool))) :
    List IterationResult :=
  batches.flatMap (fun b => b.map Prod.fst)

/-- Boolean sortedness by ascending timestamp. -/
def isSortedByTs : List IterationResult → Bool
  | [] => true
  | [_] => true
  | a :: b :: t => tsLe a b && isSortedByTs (b :: t)

theorem tsLe_trans (a b c : IterationResult) (h1 : tsLe a b = true)
    (h2 : tsLe b c = true) : tsLe a c = true := by
  simp only [tsLe, decide_eq_true_eq] at *
  exact le_trans h1 h2

theorem tsLe_total (a b : IterationResult) :
    (tsLe a b || tsLe b a) = true := by
  simp only [tsLe, Bool.or_eq_true, decide_eq_true_eq]
  exact le_total a.timestamp b.timestamp

theorem pairwise_isSortedByTs (l : List IterationResult)
    (h : List.Pairwise (fun a b => tsLe a b = true) l) :
    isSortedByTs l = true := by
  induction l with
  | nil => rfl
  | cons a t ih =>
    cases t with
    | nil => rfl
    | cons b u =>
      rw [List.pairwise_cons] at h
      unfold isSortedByTs
      rw [h.1 b (List.mem_cons_self b u), ih h.2]
      rfl

theorem mergeSort_isSortedByTs (l : List IterationResult) :
    isSortedByTs (l.mergeSort tsLe) = true :=
  pairwise_isSortedByTs _ (List.sorted_mergeSort tsLe_trans tsLe_total l)

theorem batchFold_preserves_buffer (a : Bool)
    (batch : List (IterationResult × Bool)) (s : ConsumerState) :
    (batch.foldl (fun acc rv => consumeOneResult a acc rv.1 rv.2)
       s).results = s.results ∧
    (batch.foldl (fun acc rv => consumeOneResult a acc rv.1 rv.2)
       s).chunks = s.chunks ∧
    (batch.foldl (fun acc rv => consumeOneResult a acc rv.1 rv.2)
       s).workload_data_count = s.workload_data_count := by
  induction batch generalizing s with
  | nil => exact ⟨rfl, rfl, rfl⟩
  | cons rv rest ih =>
    have hstep : (consumeOneResult a s rv.1 rv.2).results = s.results ∧
        (consumeOneResult a s rv.1 rv.2).chunks = s.chunks ∧
        (consumeOneResult a s rv.1 rv.2).workload_data_count =
          s.workload_data_count := by
      cases hc : (a && !rv.2 && !s.task_aborted) <;>
        simp [consumeOneResult, hc]
    obtain ⟨h1, h2, h3⟩ := ih (consumeOneResult a s rv.1 rv.2)
    simp only [List.foldl_cons]
    exact ⟨h1.trans hstep.1, h2.trans hstep.2.1, h3.trans hstep.2.2⟩

theorem saveResultChunks_spec (chunk_size : ℕ) (s : ConsumerState) :
    (saveResultChunks chunk_size s).results =
      chunkRemainder chunk_size s.results ∧
    (saveResultChunks chunk_size s).chunks = s.chunks ++
      List.enumFrom s.workload_data_count
        ((chunkBlocks chunk_size s.results).map
          (fun b => b.mergeSort tsLe)) ∧
    (saveResultChunks chunk_size s).workload_data_count =
      s.workload_data_count + (chunkBlocks chunk_size s.results).length := by
  induction s using saveResultChunks.induct chunk_size with
  | case1 s h ih =>
    rw [saveResultChunks, dif_pos h]
    obtain ⟨ih1, ih2, ih3⟩ := ih
    refine ⟨?_, ?_, ?_⟩
    · rw [ih1]
      conv_rhs => rw [chunkRemainder, dif_pos h]
    · rw [ih2]
      conv_rhs => rw [chunkBlocks, dif_pos h]
      simp only [List.map_cons, List.enumFrom, List.append_assoc,
        List.cons_append, List.nil_append]
    · rw [ih3]
      conv_rhs => rw [chunkBlocks, dif_pos h]
      simp only [List.length_cons]
      omega
  | case2 s h =>
    rw [saveResultChunks, dif_neg h]
    rw [chunkRemainder, dif_neg h, chunkBlocks, dif_neg h]
    simp [List.enumFrom]

theorem chunkBlocks_eq_pos (chunk_size : ℕ) (l : List IterationResult)
    (h : 1 ≤ chunk_size ∧ chunk_size ≤ l.length) :
    chunkBlocks chunk_size l =
      l.take chunk_size :: chunkBlocks chunk_size (l.drop chunk_size) := by
  rw [chunkBlocks]
  exact dif_pos h

theorem chunkBlocks_eq_neg (chunk_size : ℕ) (l : List IterationResult)
    (h : ¬(1 ≤ chunk_size ∧ chunk_size ≤ l.length)) :
    chunkBlocks chunk_size l = [] := by
  rw [chunkBlocks]
  exact dif_neg h

theorem chunkRemainder_eq_pos (chunk_size : ℕ) (l : List IterationResult)
    (h : 1 ≤ chunk_size ∧ chunk_size ≤ l.length) :
    chunkRemainder chunk_size l =
      chunkRemainder chunk_size (l.drop chunk_size) := by
  rw [chunkRemainder]
  exact dif_pos h

theorem chunkRemainder_eq_neg (chunk_size : ℕ) (l : List IterationResult)
    (h : ¬(1 ≤ chunk_size ∧ chunk_size ≤ l.length)) :
    chunkRemainder chunk_size l = l := by
  rw [chunkRemainder]
  exact dif_neg h

theorem chunk_append (chunk_size : ℕ) (l m : List IterationResult) :
    chunkBlocks chunk_size (l ++ m) = chunkBlocks chunk_size l ++
      chunkBlocks chunk_size (chunkRemainder chunk_size l ++ m) ∧
    chunkRemainder chunk_size (l ++ m) =
      chunkRemainder chunk_size (chunkRemainder chunk_size l ++ m) := by
  induction l using chunkBlocks.induct chunk_size with
  | case1 l h ih =>
    have hlen : 1 ≤ chunk_size ∧ chunk_size ≤ (l ++ m).length := by
      rw [List.length_append]
      omega
    have htake : (l ++ m).take chunk_size = l.take chunk_size :=
      List.take_append_of_le_length h.2
    have hdrop : (l ++ m).drop chunk_size = l.drop chunk_size ++ m :=
      List.drop_append_of_le_length h.2
    constructor
    · rw [chunkBlocks_eq_pos _ _ hlen, htake, hdrop, ih.1,
        chunkBlocks_eq_pos _ _ h, chunkRemainder_eq_pos _ _ h]
      simp
    · rw [chunkRemainder_eq_pos _ _ hlen, hdrop, ih.2,
        chunkRemainder_eq_pos _ _ h]
  | case2 l h =>
    rw [chunkBlocks_eq_neg _ _ h, chunkRemainder_eq_neg _ _ h]
    simp

theorem chunkBlocks_length (chunk_size : ℕ) (hC : 1 ≤ chunk_size)
    (l : List IterationResult) :
    (chunkBlocks chunk_size l).length = l.length / chunk_size := by
  induction l using chunkBlocks.induct chunk_size with
  | case1 l h ih =>
    rw [chunkBlocks, dif_pos h]
    simp only [List.length_cons, ih, List.length_drop]
    rw [Nat.div_eq_sub_div (by omega) h.2]
  | case2 l h =>
    rw [chunkBlocks, dif_neg h]
    have : l.length < chunk_size := by omega
    simp [Nat.div_eq_of_lt this]

theorem chunkRemainder_length (chunk_size : ℕ) (hC : 1 ≤ chunk_size)
    (l : List IterationResult) :
    (chunkRemainder chunk_size l).length = l.length % chunk_size := by
  induction l using chunkBlocks.induct chunk_size with
  | case1 l h ih =>
    rw [chunkRemainder, dif_pos h]
    rw [ih, List.length_drop]
    exact (Nat.mod_eq_sub_mod h.2).symm
  | case2 l h =>
    rw [chunkRemainder, dif_neg h]
    have : l.length < chunk_size := by omega
    rw [Nat.mod_eq_of_lt this]

theorem chunkBlocks_lengths (chunk_size : ℕ)
    (l : List IterationResult) :
    (chunkBlocks chunk_size l).map List.length =
      List.replicate (chunkBlocks chunk_size l).length chunk_size := by
  induction l using chunkBlocks.induct chunk_size with
  | case1 l h ih =>
    rw [chunkBlocks, dif_pos h]
    simp only [List.map_cons, List.length_cons, List.replicate_succ, ih,
      List.length_take]
    rw [min_eq_left h.2]
  | case2 l h =>
    rw [chunkBlocks, dif_neg h]
    rfl

/-- Invariant tying the consumer state to the arrival-ordered sequence
`rs` of all results consumed so far: the buffer holds exactly the
not-yet-chunked tail, the persisted chunks are the consecutive
`chunk_size`-slices of `rs` (each sorted by timestamp) indexed from 0,
and the chunk counter equals the number of persisted chunks. -/
def bufferInv (chunk_size : ℕ) (rs : List IterationResult)
    (s : ConsumerState) : Prop :=
  s.results = chunkRemainder chunk_size rs ∧
  s.chunks = List.enumFrom 0
    ((chunkBlocks chunk_size rs).map (fun b => b.mergeSort tsLe)) ∧
  s.workload_data_count = (chunkBlocks chunk_size rs).length

theorem consumeBatch_buffer (a : Bool) (chunk_size : ℕ)
    (rs : List IterationResult) (s : ConsumerState)
    (batch : List (IterationResult × Bool))
    (h : bufferInv chunk_size rs s) :
    bufferInv chunk_size (rs ++ batch.map Prod.fst)
      (consumeBatch a chunk_size s batch) := by
  obtain ⟨h1, h2, h3⟩ := h
  unfold consumeBatch
  obtain ⟨hf1, hf2, hf3⟩ := batchFold_preserves_buffer a batch
    { s with results := s.results ++ batch.map Prod.fst }
  obtain ⟨hs1, hs2, hs3⟩ := saveResultChunks_spec chunk_size
    (batch.foldl (fun acc rv => consumeOneResult a acc rv.1 rv.2)
      { s with results := s.results ++ batch.map Prod.fst })
  obtain ⟨happ1, happ2⟩ := chunk_append chunk_size rs (batch.map Prod.fst)
  refine ⟨?_, ?_, ?_⟩
  · rw [hs1, hf1]
    simp only [h1]
    exact happ2.symm
  · rw [hs2, hf2, hf1, hf3]
    simp only [h1, h2, h3]
    rw [happ1, List.map_append, List.enumFrom_append, zero_add,
      List.length_map]
  · rw [hs3, hf3, hf1]
    simp only [h1, h3]
    rw [happ1, List.length_append]

theorem consumeFold_buffer (a : Bool) (chunk_size : ℕ)
    (batches : List (List (IterationResult × Bool)))
    (rs : List IterationResult) (s : ConsumerState)
    (h : bufferInv chunk_size rs s) :
    bufferInv chunk_size (rs ++ arrivals batches)
      (batches.foldl (consumeBatch a chunk_size) s) := by
  induction batches generalizing rs s with
  | nil =>
    simpa [arrivals] using h
  | cons b rest ih =>
    have hb := consumeBatch_buffer a chunk_size rs s b h
    have := ih (rs ++ b.map Prod.fst) _ hb
    simpa [arrivals, List.append_assoc] using this

theorem consumeResults_buffer (a : Bool) (chunk_size : ℕ)
    (batches : List (List (IterationResult × Bool))) :
    bufferInv chunk_size (arrivals batches)
      (consumeResults a chunk_size batches) := by
  have h0 : bufferInv chunk_size [] initConsumerState := by
    have hneg : ¬(1 ≤ chunk_size ∧
        chunk_size ≤ ([] : List IterationResult).length) := by
      simp only [List.length_nil]
      omega
    refine ⟨?_, ?_, ?_⟩ <;>
      simp [initConsumerState, chunkRemainder_eq_neg _ _ hneg,
        chunkBlocks_eq_neg _ _ hneg, List.enumFrom]
  have := consumeFold_buffer a chunk_size batches [] initConsumerState h0
  simpa [consumeResults] using this

/-- One step of the running minimum `load_started_at`, with `none`
standing for the initial float `inf`. -/
def stepStart (acc : Option ℚ) (r : IterationResult) : Option ℚ :=
  some (match acc with
    | none => r.timestamp
    | some a => min r.timestamp a)

/-- One step of the running maximum `load_finished_at`. -/
def stepFinish (acc : ℚ) (r : IterationResult) : ℚ :=
  max (r.duration + r.timestamp) acc

theorem consumeOneResult_load (a : Bool) (s : ConsumerState)
    (r : IterationResult) (v : Bool) :
    (consumeOneResult a s r v).load_started_at =
      stepStart s.load_started_at r ∧
    (consumeOneResult a s r v).load_finished_at =
      stepFinish s.load_finished_at r := by
  cases hc : (a && !v && !s.task_aborted) <;>
    simp [consumeOneResult, hc, stepStart, stepFinish]

theorem batchFold_load (a : Bool) (batch : List (IterationResult × Bool))
    (s : ConsumerState) :
    (batch.foldl (fun acc rv => consumeOneResult a acc rv.1 rv.2)
       s).load_started_at =
      (batch.map Prod.fst).foldl stepStart s.load_started_at ∧
    (batch.foldl (fun acc rv => consumeOneResult a acc rv.1 rv.2)
       s).load_finished_at =
      (batch.map Prod.fst).foldl stepFinish s.load_finished_at := by
  induction batch generalizing s with
  | nil => exact ⟨rfl, rfl⟩
  | cons rv rest ih =>
    obtain ⟨ih1, ih2⟩ := ih (consumeOneResult a s rv.1 rv.2)
    obtain ⟨ho1, ho2⟩ := consumeOneResult_load a s rv.1 rv.2
    simp only [List.foldl_cons, List.map_cons]
    rw [ih1, ih2, ho1, ho2]
    exact ⟨rfl, rfl⟩

theorem consumeBatch_load (a : Bool) (chunk_size : ℕ) (s : ConsumerState)
    (batch : List (IterationResult × Bool)) :
    (consumeBatch a chunk_size s batch).load_started_at =
      (batch.map Prod.fst).foldl stepStart s.load_started_at ∧
    (consumeBatch a chunk_size s batch).load_finished_at =
      (batch.map Prod.fst).foldl stepFinish s.load_finished_at := by
  unfold consumeBatch
  obtain ⟨hp1, hp2, hp3, hp4, hp5, hp6⟩ := saveResultChunks_preserves
    chunk_size (batch.foldl (fun acc rv => consumeOneResult a acc rv.1 rv.2)
      { s with results := s.results ++ batch.map Prod.fst })
  obtain ⟨hb1, hb2⟩ := batchFold_load a batch
    { s with results := s.results ++ batch.map Prod.fst }
  exact ⟨hp5.trans hb1, hp6.trans hb2⟩

theorem consumeResults_load (a : Bool) (chunk_size : ℕ)
    (batches : List (List (IterationResult × Bool))) :
    (consumeResults a chunk_size batches).load_started_at =
      (arrivals batches).foldl stepStart none ∧
    (consumeResults a chunk_size batches).load_finished_at =
      (arrivals batches).foldl stepFinish 0 := by
  suffices hgen : ∀ (bs : List (List (IterationResult × Bool)))
      (s : ConsumerState),
      (bs.foldl (consumeBatch a chunk_size) s).load_started_at =
        (arrivals bs).foldl stepStart s.load_started_at ∧
      (bs.foldl (consumeBatch a chunk_size) s).load_finished_at =
        (arrivals bs).foldl stepFinish s.load_finished_at by
    have := hgen batches initConsumerState
    simpa [consumeResults, initConsumerState] using this
  intro bs
  induction bs with
  | nil => intro s; simp [arrivals]
  | cons b rest ih =>
    intro s
    obtain ⟨ih1, ih2⟩ := ih (consumeBatch a chunk_size s b)
    obtain ⟨hb1, hb2⟩ := consumeBatch_load a chunk_size s b
    simp only [List.foldl_cons, arrivals, List.flatMap_cons,
      List.foldl_append] at *
    rw [ih1, ih2, hb1, hb2]
    exact ⟨rfl, rfl⟩

/-- The load-duration formula exactly as the specification states it:
`max(max over results of (timestamp + duration) − min over results of
timestamp, 0)`, `0` for zero results.  (Spec-side definition, for
comparison with the embedded code.) -/
def claimedLoadDuration (rs : List IterationResult) : ℚ :=
  match rs with
  | [] => 0
  | r :: t =>
    max ((t.foldl (fun acc x => max acc (x.timestamp + x.duration))
            (r.timestamp + r.duration)) -
         (t.foldl (fun acc x => min acc x.timestamp) r.timestamp)) 0

/-- The load-duration formula amended to what the code computes: the
latest bound starts at `0` (`load_finished_at = 0` before any result),
so for a non-empty result sequence the maximum of the end times is
first clamped at `0`.  It agrees with `claimedLoadDuration` whenever
some result has `timestamp + duration ≥ 0`. -/
def amendedLoadDuration (rs : List IterationResult) : ℚ :=
  match rs with
  | [] => 0
  | r :: t =>
    max ((max 0 (t.foldl (fun acc x => max acc (x.timestamp + x.duration))
            (r.timestamp + r.duration))) -
         (t.foldl (fun acc x => min acc x.timestamp) r.timestamp)) 0

theorem consumerExit_load_duration (exc : Bool) (obs : TaskStatus)
    (s : ConsumerState) :
    (consumerExit exc obs s).load_duration =
      clampedDuration s.load_finished_at s.load_started_at := by
  by_cases h : s.results.isEmpty <;> simp [consumerExit, h]

theorem consumerExit_results (exc : Bool) (obs : TaskStatus)
    (s : ConsumerState) :
    (consumerExit exc obs s).state.results = s.results.mergeSort tsLe := by
  by_cases h : s.results.isEmpty
  · rw [List.isEmpty_iff] at h
    simp [consumerExit, h]
  · simp [consumerExit, h]

theorem foldStart_some (t : List IterationResult) (acc0 : ℚ) :
    t.foldl stepStart (some acc0) =
      some (t.foldl (fun a x => min a x.timestamp) acc0) := by
  induction t generalizing acc0 with
  | nil => rfl
  | cons x u ih =>
    simp only [List.foldl_cons, stepStart]
    rw [ih]
    rw [min_comm x.timestamp acc0]

theorem foldFinish_max (t : List IterationResult) (a b : ℚ) :
    t.foldl stepFinish (max a b) =
      max a (t.foldl (fun acc x => max acc (x.timestamp + x.duration)) b) := by
  induction t generalizing b with
  | nil => rfl
  | cons x u ih =>
    simp only [List.foldl_cons, stepFinish]
    rw [show max (x.duration + x.timestamp) (max a b) =
        max a (max b (x.timestamp + x.duration)) by
      rw [add_comm x.duration x.timestamp]
      rw [max_comm (x.timestamp + x.duration) (max a b), max_assoc]]
    exact ih (max b (x.timestamp + x.duration))

/-- C2 (amended): at scope exit, `load_duration` equals
`max(max(0, max over results of (timestamp + duration)) − min over
results of timestamp, 0)` over all consumed results, and `0` when no
result was consumed. -/
theorem load_duration_eq_amended (a : Bool) (chunk_size : ℕ)
    (batches : List (List (IterationResult × Bool)))
    (exc : Bool) (obs : TaskStatus) :
    (consumerExit exc obs
      (consumeResults a chunk_size batches)).load_duration =
      amendedLoadDuration (arrivals batches) := by
  obtain ⟨h1, h2⟩ := consumeResults_load a chunk_size batches
  rw [consumerExit_load_duration, h1, h2]
  cases hrs : arrivals batches with
  | nil => rfl
  | cons r t =>
    simp only [List.foldl_cons]
    have hs : stepStart none r = some r.timestamp := rfl
    have hf : stepFinish 0 r = max 0 (r.timestamp + r.duration) := by
      simp only [stepFinish]
      rw [add_comm r.duration r.timestamp, max_comm]
    rw [hs, hf, foldStart_some, foldFinish_max]
    rfl

/-- C2 counterexample to the claim as stated: for the single result
with timestamp `-2` and duration `1` the code computes `load_duration
= 2` (because `load_finished_at` starts at `0`, above the end time
`-1`), while the claimed formula `max(max(ts+dur) − min ts, 0)` gives
`1`. -/
theorem load_duration_claim_counterexample :
    (consumerExit false TaskStatus.RUNNING
      (consumeResults false 1000
        [[(⟨-2, 1⟩, true)]])).load_duration = 2 ∧
    claimedLoadDuration (arrivals [[((⟨-2, 1⟩ : IterationResult), true)]])
      = 1 ∧
    (2 : ℚ) ≠ 1 := by
  have harr : arrivals [[((⟨-2, 1⟩ : IterationResult), true)]] =
      [⟨-2, 1⟩] := rfl
  obtain ⟨h1, h2⟩ := consumeResults_load false 1000 [[(⟨-2, 1⟩, true)]]
  refine ⟨?_, ?_, by norm_num⟩
  · rw [consumerExit_load_duration, h1, h2, harr]
    simp only [List.foldl_cons, List.foldl_nil, stepFinish, stepStart,
      clampedDuration]
    norm_num [max_def]
  · rw [harr]
    simp only [claimedLoadDuration, List.foldl_nil]
    norm_num [max_def]

/-- C3: with chunk size `C ≥ 1` and `N` consumed results, the loop
persists exactly `⌊N/C⌋` non-final chunks, indexed `0,1,2,...`, each
of exactly `C` results — the consecutive oldest-buffered-first slices
of the arrival sequence — sorted by timestamp ascending; the final
flush at scope exit holds the remaining `N mod C` buffered results
sorted by timestamp ascending. -/
theorem chunking_spec (a : Bool) (chunk_size : ℕ)
    (batches : List (List (IterationResult × Bool)))
    (exc : Bool) (obs : TaskStatus) (hC : 1 ≤ chunk_size) :
    (consumeResults a chunk_size batches).chunks.length =
      (arrivals batches).length / chunk_size ∧
    (consumeResults a chunk_size batches).chunks.map Prod.fst =
      List.range ((arrivals batches).length / chunk_size) ∧
    (consumeResults a chunk_size batches).chunks.map
        (fun c => c.2.length) =
      List.replicate ((arrivals batches).length / chunk_size) chunk_size ∧
    (consumeResults a chunk_size batches).chunks.map Prod.snd =
      (chunkBlocks chunk_size (arrivals batches)).map
        (fun b => b.mergeSort tsLe) ∧
    (consumeResults a chunk_size batches).chunks.all
        (fun c => isSortedByTs c.2) = true ∧
    (consumerExit exc obs (consumeResults a chunk_size batches)).state.chunks
      = (consumeResults a chunk_size batches).chunks ++
        (if (consumeResults a chunk_size batches).results.isEmpty then []
         else [((arrivals batches).length / chunk_size,
           (chunkRemainder chunk_size (arrivals batches)).mergeSort tsLe)]) ∧
    (consumerExit exc obs
        (consumeResults a chunk_size batches)).state.results =
      (chunkRemainder chunk_size (arrivals batches)).mergeSort tsLe ∧
    (consumerExit exc obs
        (consumeResults a chunk_size batches)).state.results.length =
      (arrivals batches).length % chunk_size ∧
    isSortedByTs (consumerExit exc obs
        (consumeResults a chunk_size batches)).state.results = true := by
  obtain ⟨h1, h2, h3⟩ := consumeResults_buffer a chunk_size batches
  have hlen : (consumeResults a chunk_size batches).chunks.length =
      (arrivals batches).length / chunk_size := by
    rw [h2, List.enumFrom_length, List.length_map,
      chunkBlocks_length chunk_size hC]
  have hsnd : (consumeResults a chunk_size batches).chunks.map Prod.snd =
      (chunkBlocks chunk_size (arrivals batches)).map
        (fun b => b.mergeSort tsLe) := by
    rw [h2, List.enumFrom_map_snd]
  have hres : (consumerExit exc obs
      (consumeResults a chunk_size batches)).state.results =
      (chunkRemainder chunk_size (arrivals batches)).mergeSort tsLe := by
    rw [consumerExit_results, h1]
  refine ⟨hlen, ?_, ?_, hsnd, ?_, ?_, hres, ?_, ?_⟩
  · rw [h2, List.enumFrom_map_fst, List.length_map,
      chunkBlocks_length chunk_size hC, List.range_eq_range']
  · have : (consumeResults a chunk_size batches).chunks.map
        (fun c => c.2.length) =
        ((consumeResults a chunk_size batches).chunks.map Prod.snd).map
          List.length := by
      rw [List.map_map]
      rfl
    rw [this, hsnd, List.map_map]
    have hcomp : (List.length ∘ fun b : List IterationResult =>
        b.mergeSort tsLe) = List.length := by
      funext b
      simp [List.length_mergeSort]
    rw [hcomp, chunkBlocks_lengths, chunkBlocks_length chunk_size hC]
  · rw [List.all_eq_true]
    intro c hc
    have hmem : c.2 ∈ (consumeResults a chunk_size batches).chunks.map
        Prod.snd := List.mem_map_of_mem Prod.snd hc
    rw [hsnd] at hmem
    obtain ⟨b, _, hb⟩ := List.mem_map.mp hmem
    rw [← hb]
    exact mergeSort_isSortedByTs b
  · by_cases he : (consumeResults a chunk_size batches).results.isEmpty
    · simp [consumerExit, he]
    · simp only [consumerExit, he]
      simp only [Bool.false_eq_true, if_false]
      rw [h1, h3, chunkBlocks_length chunk_size hC]
  · rw [hres, List.length_mergeSort,
      chunkRemainder_length chunk_size hC]
  · rw [hres]
    exact mergeSort_isSortedByTs _

/-- Witness for C3 at a concrete input: chunk size 2 and three results
arriving in one batch give one non-final chunk and a one-element final
flush. -/
theorem chunking_spec_witness :
    (consumeResults true 2
      [[(⟨1, 1⟩, true), (⟨0, 2⟩, true), (⟨3, 1⟩, true)]]).chunks.length =
      (arrivals [[((⟨1, 1⟩ : IterationResult), true), (⟨0, 2⟩, true),
        (⟨3, 1⟩, true)]]).length / 2 ∧
    (consumeResults true 2
      [[(⟨1, 1⟩, true), (⟨0, 2⟩, true), (⟨3, 1⟩, true)]]).chunks.map
        Prod.fst =
      List.range ((arrivals [[((⟨1, 1⟩ : IterationResult), true),
        (⟨0, 2⟩, true), (⟨3, 1⟩, true)]]).length / 2) ∧
    (consumeResults true 2
      [[(⟨1, 1⟩, true), (⟨0, 2⟩, true), (⟨3, 1⟩, true)]]).chunks.map
        (fun c => c.2.length) =
      List.replicate ((arrivals [[((⟨1, 1⟩ : IterationResult), true),
        (⟨0, 2⟩, true), (⟨3, 1⟩, true)]]).length / 2) 2 ∧
    (consumeResults true 2
      [[(⟨1, 1⟩, true), (⟨0, 2⟩, true), (⟨3, 1⟩, true)]]).chunks.map
        Prod.snd =
      (chunkBlocks 2 (arrivals [[((⟨1, 1⟩ : IterationResult), true),
        (⟨0, 2⟩, true), (⟨3, 1⟩, true)]])).map
        (fun b => b.mergeSort tsLe) ∧
    (consumeResults true 2
      [[(⟨1, 1⟩, true), (⟨0, 2⟩, true), (⟨3, 1⟩, true)]]).chunks.all
        (fun c => isSortedByTs c.2) = true ∧
    (consumerExit false TaskStatus.RUNNING (consumeResults true 2
      [[(⟨1, 1⟩, true), (⟨0, 2⟩, true), (⟨3, 1⟩, true)]])).state.chunks
      = (consumeResults true 2
          [[(⟨1, 1⟩, true), (⟨0, 2⟩, true), (⟨3, 1⟩, true)]]).chunks ++
        (if (consumeResults true 2
            [[(⟨1, 1⟩, true), (⟨0, 2⟩, true),
              (⟨3, 1⟩, true)]]).results.isEmpty then []
         else [((arrivals [[((⟨1, 1⟩ : IterationResult), true),
             (⟨0, 2⟩, true), (⟨3, 1⟩, true)]]).length / 2,
           (chunkRemainder 2 (arrivals [[((⟨1, 1⟩ : IterationResult), true),
             (⟨0, 2⟩, true), (⟨3, 1⟩, true)]])).mergeSort tsLe)]) ∧
    (consumerExit false TaskStatus.RUNNING (consumeResults true 2
      [[(⟨1, 1⟩, true), (⟨0, 2⟩, true), (⟨3, 1⟩, true)]])).state.results =
      (chunkRemainder 2 (arrivals [[((⟨1, 1⟩ : IterationResult), true),
        (⟨0, 2⟩, true), (⟨3, 1⟩, true)]])).mergeSort tsLe ∧
    (consumerExit false TaskStatus.RUNNING (consumeResults true 2
      [[(⟨1, 1⟩, true), (⟨0, 2⟩, true),
        (⟨3, 1⟩, true)]])).state.results.length =
      (arrivals [[((⟨1, 1⟩ : IterationResult), true), (⟨0, 2⟩, true),
        (⟨3, 1⟩, true)]]).length % 2 ∧
    isSortedByTs (consumerExit false TaskStatus.RUNNING (consumeResults true 2
      [[(⟨1, 1⟩, true), (⟨0, 2⟩, true),
        (⟨3, 1⟩, true)]])).state.results = true :=
  chunking_spec true 2
    [[(⟨1, 1⟩, true), (⟨0, 2⟩, true), (⟨3, 1⟩, true)]]
    false TaskStatus.RUNNING (by decide)

/-- C10: at scope exit, when the number of consumed results is an
exact multiple of the chunk size (zero included) the buffer is empty
and no final chunk is persisted, while `set_results` is still called
exactly once. -/
theorem exit_flush_only_when_nonempty (a : Bool) (chunk_size : ℕ)
    (batches : List (List (IterationResult × Bool)))
    (exc : Bool) (obs : TaskStatus) (hC : 1 ≤ chunk_size)
    (h : (arrivals batches).length % chunk_size = 0) :
    (consumerExit exc obs (consumeResults a chunk_size batches)).state.chunks
      = (consumeResults a chunk_size batches).chunks ∧
    (consumerExit exc obs
      (consumeResults a chunk_size batches)).set_results_calls = 1 := by
  obtain ⟨h1, h2, h3⟩ := consumeResults_buffer a chunk_size batches
  have hempty : (consumeResults a chunk_size batches).results = [] := by
    rw [← List.length_eq_zero, h1,
      chunkRemainder_length chunk_size hC, h]
  constructor
  · simp [consumerExit, hempty]
  · by_cases he : (consumeResults a chunk_size batches).results.isEmpty <;>
      simp [consumerExit, he]

/-- Witness for C10 at a concrete input: zero batches (zero results)
with chunk size 1; no final chunk is persisted, `set_results` happens
once. -/
theorem exit_flush_only_when_nonempty_witness :
    (consumerExit false TaskStatus.RUNNING
      (consumeResults true 1 [])).state.chunks
      = (consumeResults true 1 []).chunks ∧
    (consumerExit false TaskStatus.RUNNING
      (consumeResults true 1 [])).set_results_calls = 1 :=
  exit_flush_only_when_nonempty true 1 [] false TaskStatus.RUNNING
    (by decide) (by decide)

/-- A workload outcome that stays inside the per-workload fault
boundary: the runner invocation either returns or raises an exception
that line 514 of engine.py swallows, and nothing touches the shared
task status. -/
def isBenign : WorkloadOutcome → Bool
  | WorkloadOutcome.ok => true
  | WorkloadOutcome.runnerRaises _ => true
  | _ => false

/-- The identities of the runner exceptions a workload-outcome list
produces (all of them swallowed and logged at engine.py line 514). -/
def wsIds (ws : List WorkloadOutcome) : List ℕ :=
  ws.flatMap (fun w => match w with
    | WorkloadOutcome.runnerRaises id => [id]
    | _ => [])

/-- Total number of workloads in a subtask list. -/
def totalWorkloads (subs : List (List WorkloadOutcome)) : ℕ :=
  (subs.map List.length).sum

/-- The swallowed-exception identities across all subtasks. -/
def swallowedIds (subs : List (List WorkloadOutcome)) : List ℕ :=
  subs.flatMap wsIds

theorem runWorkloads_benign (ws : List WorkloadOutcome) (s : EngineState)
    (hts : s.taskStatus = TaskStatus.RUNNING)
    (h : ∀ w ∈ ws, isBenign w = true) :
    (runWorkloads s ws).2 = none ∧
    (runWorkloads s ws).1.taskStatus = TaskStatus.RUNNING ∧
    (runWorkloads s ws).1.subtaskStatuses = s.subtaskStatuses ∧
    (runWorkloads s ws).1.workloadsStarted =
      s.workloadsStarted + ws.length ∧
    (runWorkloads s ws).1.swallowedLogs = s.swallowedLogs ++ wsIds ws := by
  induction ws generalizing s with
  | nil =>
    exact ⟨rfl, hts, rfl, by simp [runWorkloads], by simp [runWorkloads, wsIds]⟩
  | cons w rest ih =>
    have hpre : is_task_in_aborting_status s.taskStatus = false := by
      rw [hts]
      rfl
    have hw := h w (List.mem_cons_self w rest)
    have hrest := fun x hx => h x (List.mem_cons_of_mem w hx)
    cases w with
    | ok =>
      have hrw : run_workload s WorkloadOutcome.ok =
          ({ s with workloadsStarted := s.workloadsStarted + 1 }, none) := by
        simp [run_workload, hpre]
      obtain ⟨i1, i2, i3, i4, i5⟩ := ih
        { s with workloadsStarted := s.workloadsStarted + 1 } hts hrest
      rw [show runWorkloads s (WorkloadOutcome.ok :: rest) =
          runWorkloads { s with
            workloadsStarted := s.workloadsStarted + 1 } rest by
        rw [runWorkloads]
        rw [hrw]]
      refine ⟨i1, i2, i3, ?_, ?_⟩
      · rw [i4]
        simp only [List.length_cons]
        omega
      · rw [i5]
        simp [wsIds]
    | runnerRaises id =>
      have hrw : run_workload s (WorkloadOutcome.runnerRaises id) =
          ({ s with workloadsStarted := s.workloadsStarted + 1
                    swallowedLogs := s.swallowedLogs ++ [id] }, none) := by
        simp [run_workload, hpre]
      obtain ⟨i1, i2, i3, i4, i5⟩ := ih
        { s with workloadsStarted := s.workloadsStarted + 1
                 swallowedLogs := s.swallowedLogs ++ [id] } hts hrest
      rw [show runWorkloads s (WorkloadOutcome.runnerRaises id :: rest) =
          runWorkloads { s with
            workloadsStarted := s.workloadsStarted + 1
            swallowedLogs := s.swallowedLogs ++ [id] } rest by
        rw [runWorkloads]
        rw [hrw]]
      refine ⟨i1, i2, i3, ?_, ?_⟩
      · rw [i4]
        simp only [List.length_cons]
        omega
      · rw [i5]
        simp [wsIds]
    | setupRaises id => simp [isBenign] at hw
    | okSetStatus st => simp [isBenign] at hw

theorem run_subtask_benign (ws : List WorkloadOutcome) (s : EngineState)
    (hts : s.taskStatus = TaskStatus.RUNNING)
    (h : ∀ w ∈ ws, isBenign w = true) :
    (run_subtask s ws).2 = none ∧
    (run_subtask s ws).1.taskStatus = TaskStatus.RUNNING ∧
    (run_subtask s ws).1.subtaskStatuses =
      s.subtaskStatuses ++ [SubtaskStatus.FINISHED] ∧
    (run_subtask s ws).1.workloadsStarted =
      s.workloadsStarted + ws.length ∧
    (run_subtask s ws).1.swallowedLogs = s.swallowedLogs ++ wsIds ws := by
  obtain ⟨b1, b2, b3, b4, b5⟩ := runWorkloads_benign ws
    { s with subtaskStatuses :=
        s.subtaskStatuses ++ [SubtaskStatus.RUNNING] } hts h
  cases hrw : runWorkloads
      { s with subtaskStatuses :=
          s.subtaskStatuses ++ [SubtaskStatus.RUNNING] } ws with
  | mk s' oe =>
    rw [hrw] at b1 b2 b3 b4 b5
    simp only at b1 b2 b3 b4 b5
    subst b1
    rw [run_subtask, hrw]
    refine ⟨rfl, b2, ?_, b4, b5⟩
    show (setLastSubtask s' SubtaskStatus.FINISHED).subtaskStatuses =
      s.subtaskStatuses ++ [SubtaskStatus.FINISHED]
    simp only [setLastSubtask]
    rw [b3, List.dropLast_concat]

theorem runSubtasks_benign (subs : List (List WorkloadOutcome))
    (s : EngineState) (hts : s.taskStatus = TaskStatus.RUNNING)
    (h : ∀ ws ∈ subs, ∀ w ∈ ws, isBenign w = true) :
    (runSubtasks s subs).2 = none ∧
    (runSubtasks s subs).1.taskStatus = TaskStatus.RUNNING ∧
    (runSubtasks s subs).1.subtaskStatuses = s.subtaskStatuses ++
      List.replicate subs.length SubtaskStatus.FINISHED ∧
    (runSubtasks s subs).1.workloadsStarted =
      s.workloadsStarted + totalWorkloads subs ∧
    (runSubtasks s subs).1.swallowedLogs =
      s.swallowedLogs ++ swallowedIds subs := by
  induction subs generalizing s with
  | nil =>
    exact ⟨rfl, hts, by simp [runSubtasks],
      by simp [runSubtasks, totalWorkloads],
      by simp [runSubtasks, swallowedIds]⟩
  | cons ws rest ih =>
    obtain ⟨b1, b2, b3, b4, b5⟩ := run_subtask_benign ws s hts
      (h ws (List.mem_cons_self ws rest))
    cases hrs : run_subtask s ws with
    | mk s' oe =>
      rw [hrs] at b1 b2 b3 b4 b5
      simp only at b1 b2 b3 b4 b5
      subst b1
      obtain ⟨i1, i2, i3, i4, i5⟩ := ih s' b2
        (fun x hx => h x (List.mem_cons_of_mem ws hx))
      rw [show runSubtasks s (ws :: rest) = runSubtasks s' rest by
        rw [runSubtasks]
        rw [hrs]]
      refine ⟨i1, i2, ?_, ?_, ?_⟩
      · rw [i3, b3]
        simp [List.replicate_succ, List.append_assoc]
      · rw [i4, b4]
        simp only [totalWorkloads, List.map_cons, List.sum_cons]
        omega
      · rw [i5, b5]
        simp [swallowedIds]

/-- C5: when every workload of every subtask either succeeds or raises
only inside the runner invocation (the swallowed fault class) and no
abort occurs, `run()` completes normally: no exception reaches the
caller, every runner exception is logged and swallowed in order, every
subtask is still FINISHED, every workload still runs, and the task
ends FINISHED. -/
theorem run_isolates_workload_faults
    (subs : List (List WorkloadOutcome))
    (h : ∀ ws ∈ subs, ∀ w ∈ ws, isBenign w = true) :
    (runEngine initEngineState subs).2 = none ∧
    (runEngine initEngineState subs).1.taskStatus = TaskStatus.FINISHED ∧
    (runEngine initEngineState subs).1.subtaskStatuses =
      List.replicate subs.length SubtaskStatus.FINISHED ∧
    (runEngine initEngineState subs).1.workloadsStarted =
      totalWorkloads subs ∧
    (runEngine initEngineState subs).1.swallowedLogs = swallowedIds subs := by
  obtain ⟨b1, b2, b3, b4, b5⟩ := runSubtasks_benign subs
    { initEngineState with taskStatus := TaskStatus.RUNNING } rfl h
  cases hrs : runSubtasks
      { initEngineState with taskStatus := TaskStatus.RUNNING } subs with
  | mk s' oe =>
    rw [hrs] at b1 b2 b3 b4 b5
    simp only at b1 b2 b3 b4 b5
    subst b1
    have hne : ¬s'.taskStatus = TaskStatus.ABORTED := by
      rw [b2]
      exact fun hc => TaskStatus.noConfusion hc
    rw [runEngine, hrs]
    simp only [engineOutcome]
    rw [if_pos hne]
    refine ⟨rfl, rfl, ?_, ?_, ?_⟩
    · show s'.subtaskStatuses = _
      rw [b3]
      simp [initEngineState]
    · show s'.workloadsStarted = _
      rw [b4]
      simp [initEngineState]
    · show s'.swallowedLogs = _
      rw [b5]
      simp [initEngineState]

/-- Witness for C5 at a concrete input: two subtasks, the second's
first workload raising inside the runner invocation; the run finishes
with everything FINISHED and the fault logged. -/
theorem run_isolates_workload_faults_witness :
    (runEngine initEngineState
      [[WorkloadOutcome.ok],
       [WorkloadOutcome.runnerRaises 5, WorkloadOutcome.ok]]).2 = none ∧
    (runEngine initEngineState
      [[WorkloadOutcome.ok],
       [WorkloadOutcome.runnerRaises 5,
        WorkloadOutcome.ok]]).1.taskStatus = TaskStatus.FINISHED ∧
    (runEngine initEngineState
      [[WorkloadOutcome.ok],
       [WorkloadOutcome.runnerRaises 5,
        WorkloadOutcome.ok]]).1.subtaskStatuses =
      List.replicate 2 SubtaskStatus.FINISHED ∧
    (runEngine initEngineState
      [[WorkloadOutcome.ok],
       [WorkloadOutcome.runnerRaises 5,
        WorkloadOutcome.ok]]).1.workloadsStarted =
      totalWorkloads [[WorkloadOutcome.ok],
        [WorkloadOutcome.runnerRaises 5, WorkloadOutcome.ok]] ∧
    (runEngine initEngineState
      [[WorkloadOutcome.ok],
       [WorkloadOutcome.runnerRaises 5,
        WorkloadOutcome.ok]]).1.swallowedLogs =
      swallowedIds [[WorkloadOutcome.ok],
        [WorkloadOutcome.runnerRaises 5, WorkloadOutcome.ok]] :=
  run_isolates_workload_faults
    [[WorkloadOutcome.ok],
     [WorkloadOutcome.runnerRaises 5, WorkloadOutcome.ok]] (by decide)

/-- C4 counterexample: the pre-flight check performed by
`_run_workload` (engine.py line 498) calls
`is_task_in_aborting_status` with its default `check_soft=True`, so it
answers `true` for SOFT_ABORTING, which is not one of the hard-abort
statuses — contradicting the claim that the pre-flight tests only
ABORTING and ABORTED. -/
theorem preflight_soft_counterexample :
    is_task_in_aborting_status TaskStatus.SOFT_ABORTING = true ∧
    ¬(TaskStatus.SOFT_ABORTING = TaskStatus.ABORTING ∨
      TaskStatus.SOFT_ABORTING = TaskStatus.ABORTED) ∧
    (run_workload
      { taskStatus := TaskStatus.SOFT_ABORTING, subtaskStatuses := [],
        workloadsStarted := 0, swallowedLogs := [] }
      WorkloadOutcome.ok).2 = some Exc.taskAborted := by
  decide

/-- C4 (amended): the pre-flight check before starting a workload
tests ABORTING, ABORTED and also SOFT_ABORTING (`check_soft` defaults
to `True`); only the watcher's `check_soft=False` variant restricts to
the hard statuses; and when the pre-flight answers `true` the abort
sentinel is raised instead of starting the workload. -/
theorem preflight_checks_hard_and_soft (s : EngineState)
    (w : WorkloadOutcome) :
    (is_task_in_aborting_status s.taskStatus =
      (decide (s.taskStatus = TaskStatus.ABORTING) ||
       decide (s.taskStatus = TaskStatus.ABORTED) ||
       decide (s.taskStatus = TaskStatus.SOFT_ABORTING))) ∧
    (is_task_in_aborting_status s.taskStatus false =
      (decide (s.taskStatus = TaskStatus.ABORTING) ||
       decide (s.taskStatus = TaskStatus.ABORTED))) ∧
    (is_task_in_aborting_status s.taskStatus = true →
      run_workload s w = (s, some Exc.taskAborted)) := by
  obtain ⟨st, subts, n, logs⟩ := s
  refine ⟨?_, ?_, ?_⟩
  · cases st <;> rfl
  · cases st <;> rfl
  · intro hpre
    simp [run_workload, hpre]

/-- Witness for the amended C4 at a concrete input: with the task in
SOFT_ABORTING, the pre-flight raises the sentinel and the workload is
not started. -/
theorem preflight_checks_hard_and_soft_witness :
    run_workload
      { taskStatus := TaskStatus.SOFT_ABORTING, subtaskStatuses := [],
        workloadsStarted := 0, swallowedLogs := [] }
      WorkloadOutcome.ok =
    ({ taskStatus := TaskStatus.SOFT_ABORTING, subtaskStatuses := [],
       workloadsStarted := 0, swallowedLogs := [] },
     some Exc.taskAborted) :=
  (preflight_checks_hard_and_soft
    { taskStatus := TaskStatus.SOFT_ABORTING, subtaskStatuses := [],
      workloadsStarted := 0, swallowedLogs := [] }
    WorkloadOutcome.ok).2.2 (by decide)

theorem getLast_setLast (s : EngineState) (st : SubtaskStatus) :
    (setLastSubtask s st).subtaskStatuses.getLast? = some st := by
  simp [setLastSubtask]

/-- What the subtask-level `except` clauses guarantee about the state
reached when exception `e` escapes: the last registered subtask is
marked ABORTED for the sentinel, CRASHED (together with the task)
for anything else. -/
def escapeMarks (r : EngineState × Option Exc) (e : Exc) : Prop :=
  match e with
  | Exc.taskAborted =>
      r.1.subtaskStatuses.getLast? = some SubtaskStatus.ABORTED
  | Exc.other _ =>
      r.1.subtaskStatuses.getLast? = some SubtaskStatus.CRASHED ∧
      r.1.taskStatus = TaskStatus.CRASHED

theorem run_subtask_exc (s : EngineState) (ws : List WorkloadOutcome)
    (e : Exc) (h : (run_subtask s ws).2 = some e) :
    escapeMarks (run_subtask s ws) e := by
  cases hrw : runWorkloads
      { s with subtaskStatuses :=
          s.subtaskStatuses ++ [SubtaskStatus.RUNNING] } ws with
  | mk s' oe =>
    rw [run_subtask, hrw] at h
    rw [show run_subtask s ws = subtaskOutcome (s', oe) by
      rw [run_subtask, hrw]]
    cases oe with
    | none => exact absurd h (by simp [subtaskOutcome])
    | some f =>
      cases f with
      | taskAborted =>
        have he : e = Exc.taskAborted := by
          simp only [subtaskOutcome, Option.some.injEq] at h
          exact h.symm
        subst he
        exact getLast_setLast s' SubtaskStatus.ABORTED
      | other id =>
        have he : e = Exc.other id := by
          simp only [subtaskOutcome, Option.some.injEq] at h
          exact h.symm
        subst he
        exact ⟨getLast_setLast s' SubtaskStatus.CRASHED, rfl⟩

theorem runSubtasks_exc (subs : List (List WorkloadOutcome))
    (s : EngineState) (e : Exc)
    (h : (runSubtasks s subs).2 = some e) :
    escapeMarks (runSubtasks s subs) e := by
  induction subs generalizing s with
  | nil => exact absurd h (by simp [runSubtasks])
  | cons ws rest ih =>
    cases hrs : run_subtask s ws with
    | mk s' oe =>
      cases oe with
      | none =>
        have hru : runSubtasks s (ws :: rest) = runSubtasks s' rest := by
          rw [runSubtasks]
          rw [hrs]
        rw [hru] at h ⊢
        exact ih s' h
      | some f =>
        have hru : runSubtasks s (ws :: rest) = (s', some f) := by
          rw [runSubtasks]
          rw [hrs]
        rw [hru] at h ⊢
        have he : f = e := Option.some_inj.mp h
        subst he
        have hsub := run_subtask_exc s ws f (by rw [hrs])
        rw [hrs] at hsub
        exact hsub

/-- What C6 asserts about the outcome of `run()` when exception `e`
escaped the subtask loop. -/
def runEscapeSpec (r : EngineState × Option Exc) (e : Exc) : Prop :=
  match e with
  | Exc.taskAborted =>
      r.2 = none ∧
      r.1.taskStatus = TaskStatus.ABORTED ∧
      r.1.subtaskStatuses.getLast? = some SubtaskStatus.ABORTED
  | Exc.other id =>
      r.2 = some (Exc.other id) ∧
      r.1.taskStatus = TaskStatus.CRASHED ∧
      r.1.subtaskStatuses.getLast? = some SubtaskStatus.CRASHED

/-- C6: when an exception escapes the subtask-level workload loop, the
subtask that raised it is the last one registered and: for any
exception other than the abort sentinel, that subtask is CRASHED, the
task is CRASHED and the same exception reaches the caller of `run()`;
for the abort sentinel, that subtask is ABORTED and `run()` returns
with the task ABORTED, no error reaching the caller. -/
theorem run_exception_paths (subs : List (List WorkloadOutcome)) (e : Exc)
    (h : (runSubtasks
      { initEngineState with taskStatus := TaskStatus.RUNNING } subs).2 =
        some e) :
    runEscapeSpec (runEngine initEngineState subs) e := by
  have hexc := runSubtasks_exc subs
    { initEngineState with taskStatus := TaskStatus.RUNNING } e h
  cases hrs : runSubtasks
      { initEngineState with taskStatus := TaskStatus.RUNNING } subs with
  | mk s' oe =>
    rw [hrs] at h hexc
    have hoe : oe = some e := h
    subst hoe
    rw [show runEngine initEngineState subs = engineOutcome (s', some e) by
      rw [runEngine, hrs]]
    cases e with
    | taskAborted => exact ⟨rfl, rfl, hexc⟩
    | other id => exact ⟨rfl, hexc.2, hexc.1⟩

/-- Witness for C6 at a concrete input: a single subtask whose only
workload raises outside the swallowed region; the subtask and task end
CRASHED and the same exception reaches the caller. -/
theorem run_exception_paths_witness :
    (runEngine initEngineState [[WorkloadOutcome.setupRaises 7]]).2 =
      some (Exc.other 7) ∧
    (runEngine initEngineState
      [[WorkloadOutcome.setupRaises 7]]).1.taskStatus =
        TaskStatus.CRASHED ∧
    (runEngine initEngineState
      [[WorkloadOutcome.setupRaises 7]]).1.subtaskStatuses.getLast? =
      some SubtaskStatus.CRASHED :=
  run_exception_paths [[WorkloadOutcome.setupRaises 7]] (Exc.other 7)
    (by decide)

/-- C7: `validate()` records the VALIDATING status update as its very
first action, before attempting any of the three validation passes;
and whenever some pass raises, the first such exception is recorded on
the task via `set_failed` (kind, message, serialized traceback) and a
single `InvalidTaskException` carrying the exception's message is
raised to the caller. -/
theorem validate_sets_status_and_records_failures
    (p1 p2 p3 : Option PyExc) :
    (validateEngine p1 p2 p3).1.head? =
      some (VEvent.statusSet TaskStatus.VALIDATING) ∧
    (∀ e : PyExc, firstFailure p1 p2 p3 = some e →
      VEvent.setFailed e.name e.msg (serializeTrace e.trace) ∈
        (validateEngine p1 p2 p3).1 ∧
      (validateEngine p1 p2 p3).2 = some e.msg) := by
  constructor
  · cases p1 <;> cases p2 <;> cases p3 <;> rfl
  · intro e he
    cases p1 with
    | some e1 =>
      have h1 : e1 = e := by
        simpa [firstFailure] using he
      subst h1
      constructor
      · simp [validateEngine]
      · rfl
    | none =>
      cases p2 with
      | some e2 =>
        have h2 : e2 = e := by
          simpa [firstFailure] using he
        subst h2
        constructor
        · simp [validateEngine]
        · rfl
      | none =>
        cases p3 with
        | some e3 =>
          have h3 : e3 = e := by
            simpa [firstFailure] using he
          subst h3
          constructor
          · simp [validateEngine]
          · rfl
        | none => simp [firstFailure] at he

/-- Witness for C7 at a concrete input: the first (name-availability)
pass raises; VALIDATING is the first recorded event, `set_failed`
records the exception and `InvalidTaskException` carries its
message. -/
theorem validate_sets_status_and_records_failures_witness :
    (validateEngine (some ⟨"NotFoundScenarios", "boom", "tb"⟩)
      none none).1.head? =
      some (VEvent.statusSet TaskStatus.VALIDATING) ∧
    (VEvent.setFailed "NotFoundScenarios" "boom" (serializeTrace "tb") ∈
      (validateEngine (some ⟨"NotFoundScenarios", "boom", "tb"⟩)
        none none).1 ∧
    (validateEngine (some ⟨"NotFoundScenarios", "boom", "tb"⟩)
      none none).2 = some "boom") :=
  ⟨(validate_sets_status_and_records_failures
      (some ⟨"NotFoundScenarios", "boom", "tb"⟩) none none).1,
   (validate_sets_status_and_records_failures
      (some ⟨"NotFoundScenarios", "boom", "tb"⟩) none none).2
     ⟨"NotFoundScenarios", "boom", "tb"⟩ rfl⟩

theorem lookup_map_setEntry (k k' : String) (v : JVal)
    (kvs : List (String × JVal)) (h : (k' == k) = false) :
    List.lookup k'
      (kvs.map (fun q => if q.1 == k then (k, v) else q)) =
    List.lookup k' kvs := by
  induction kvs with
  | nil => rfl
  | cons p t ih =>
    by_cases hp : (p.1 == k) = true
    · have hpk : p.1 = k := by simpa [beq_iff_eq] using hp
      simp only [List.map_cons, hp, if_pos]
      rw [List.lookup, List.lookup, h, hpk, h]
      exact ih
    · simp only [List.map_cons, hp, if_neg, Bool.false_eq_true,
        not_false_eq_true]
      rw [List.lookup, List.lookup]
      cases k' == p.1
      · exact ih
      · rfl

theorem lookup_append_setEntry (k k' : String) (v : JVal)
    (kvs : List (String × JVal)) (h : (k' == k) = false) :
    List.lookup k' (kvs ++ [(k, v)]) = List.lookup k' kvs := by
  induction kvs with
  | nil => simp [List.lookup, h]
  | cons p t ih =>
    rw [List.cons_append, List.lookup, List.lookup]
    cases k' == p.1
    · exact ih
    · rfl

theorem lookup_setKey_ne (k k' : String) (v : JVal)
    (kvs : List (String × JVal)) (h : k' ≠ k) :
    List.lookup k' (setKey kvs k v) = List.lookup k' kvs := by
  have hbeq : (k' == k) = false := by
    cases hkp : k' == k
    · rfl
    · exact absurd (by simpa [beq_iff_eq] using hkp) h
  rw [setKey]
  by_cases hany : kvs.any (fun p => p.1 == k)
  · rw [if_pos hany]
    exact lookup_map_setEntry k k' v kvs hbeq
  · rw [if_neg hany]
    exact lookup_append_setEntry k k' v kvs hbeq

theorem lookup_map_setEntry_self (k : String) (v : JVal)
    (kvs : List (String × JVal))
    (h : kvs.any (fun p => p.1 == k) = true) :
    List.lookup k
      (kvs.map (fun q => if q.1 == k then (k, v) else q)) = some v := by
  induction kvs with
  | nil => simp at h
  | cons p t ih =>
    by_cases hp : (p.1 == k) = true
    · simp only [List.map_cons, hp, if_pos]
      rw [List.lookup]
      simp
    · simp only [List.map_cons, hp, if_neg, Bool.false_eq_true,
        not_false_eq_true]
      rw [List.lookup]
      have hkp : (k == p.1) = false := by
        cases hx : k == p.1
        · rfl
        · have : k = p.1 := by simpa [beq_iff_eq] using hx
          subst this
          simp at hp
      rw [hkp]
      apply ih
      have := h
      simp only [List.any_cons] at this
      rcases Bool.or_eq_true_iff.mp this with hl | hr
      · exact absurd hl hp
      · exact hr

theorem lookup_setKey_self (k : String) (v : JVal)
    (kvs : List (String × JVal)) :
    List.lookup k (setKey kvs k v) = some v := by
  rw [setKey]
  by_cases hany : kvs.any (fun p => p.1 == k)
  · rw [if_pos hany]
    exact lookup_map_setEntry_self k v kvs hany
  · rw [if_neg hany]
    have hnone : List.lookup k kvs = none := by
      induction kvs with
      | nil => rfl
      | cons p t ih =>
        simp only [List.any_cons, Bool.or_eq_true_iff, not_or] at hany
        rw [List.lookup]
        have : (k == p.1) = false := by
          cases hx : k == p.1
          · rfl
          · have hkp : k = p.1 := by simpa [beq_iff_eq] using hx
            exact absurd (by simp [hkp.symm]) hany.1
        rw [this]
        exact ih (by simpa using hany.2)
    induction kvs with
    | nil => simp [List.lookup]
    | cons p t ih =>
      rw [List.cons_append, List.lookup]
      rw [List.lookup] at hnone
      cases hx : k == p.1
      · rw [hx] at hnone
        exact ih (by
          simp only [List.any_cons, Bool.or_eq_true_iff, not_or] at hany
          simpa using hany.2) hnone
      · rw [hx] at hnone
        exact absurd hnone (by simp)

/-- The single-workload `SubTask` that the version-1 branch of
`_make_subtasks` builds for one (scenario name, variant) pair. -/
def v1PairSubtask (gi : String → Option String) (name : String)
    (v1w : JVal) : SubTask :=
  mkSubTask gi
    [("title", JVal.str name),
     ("workloads", JVal.arr
       [JVal.obj (setKey (asObj v1w) "name" (JVal.str name))])]

/-- C8: a version-1 document (flat mapping scenario name → variant
list) normalizes to one single-workload Subtask per (name, variant)
pair, in document order; each such Subtask is titled with the scenario
name and its sole Workload carries that name at position 0 with the
variant's args; in particular
`{"scenario_a": [{"args": {"x": 1}}]}` yields one Subtask titled
"scenario_a" with one Workload "scenario_a", position 0, args
`{"x": 1}`. -/
theorem v1_normalization (gi : String → Option String)
    (config : List (String × JVal)) (name : String)
    (w : List (String × JVal)) :
    _make_subtasks gi 1 config =
      config.flatMap (fun nv =>
        (asArr nv.2).map (fun v1w => v1PairSubtask gi nv.1 v1w)) ∧
    (v1PairSubtask gi name (JVal.obj w)).title = JVal.str name ∧
    (v1PairSubtask gi name (JVal.obj w)).workloads.map
        (fun wl => (wl.name, wl.pos, wl.args)) =
      [(name, 0, jgetD w "args" (JVal.obj []))] ∧
    (_make_subtasks gi 1
        [("scenario_a", JVal.arr [JVal.obj [("args",
          JVal.obj [("x", JVal.num 1)])]])]).map
        (fun st => (st.title, st.workloads.map
          (fun wl => (wl.name, wl.pos, wl.args)))) =
      [(JVal.str "scenario_a",
        [("scenario_a", 0, JVal.obj [("x", JVal.num 1)])])] := by
  refine ⟨?_, ?_, ?_, ?_⟩
  · simp only [_make_subtasks, v1PairSubtask]
    norm_num
  · rfl
  · have hW : (v1PairSubtask gi name (JVal.obj w)).workloads =
        [mkWorkload gi (setKey w "name" (JVal.str name)) 0] := rfl
    rw [hW]
    simp only [List.map_cons, List.map_nil]
    have hname : (mkWorkload gi (setKey w "name" (JVal.str name)) 0).name
        = name := by
      show asStr (jgetD (setKey w "name" (JVal.str name)) "name" JVal.null)
        = name
      rw [jgetD, lookup_setKey_self]
      rfl
    have hargs : (mkWorkload gi (setKey w "name" (JVal.str name)) 0).args
        = jgetD w "args" (JVal.obj []) := by
      show jgetD (setKey w "name" (JVal.str name)) "args" (JVal.obj [])
        = jgetD w "args" (JVal.obj [])
      rw [jgetD, jgetD, lookup_setKey_ne _ _ _ _ (by decide)]
    rw [hname, hargs]
    rfl
  · rfl

/-- C9: a task document whose declared version (defaulting to 1 when
absent) equals neither 1 nor 2 makes `TaskConfig` construction fail
immediately after the version is read — before schema validation and
before any subtask is built — with an `InvalidTaskException` whose
message enumerates the supported versions 1 and 2. -/
theorem unsupported_version_rejected
    (schemaCheck : ℤ → List (String × JVal) → Option String)
    (gi : String → Option String) (cfg : List (String × JVal))
    (h1 : pyEqInt (_get_version cfg) 1 = false)
    (h2 : pyEqInt (_get_version cfg) 2 = false) :
    taskConfigInit schemaCheck gi (some cfg) =
      ([InitEvent.versionDetermined (_get_version cfg)],
       Except.error (PyError.invalidTask
         ("Task configuration version " ++ pyStr (_get_version cfg) ++
          " is not supported. Supported versions: 1, 2"))) := by
  simp [taskConfigInit, h1, h2, versionErrMsg]

/-- Witness for C9 at a concrete input: declared version 99 is
rejected with the enumerating message, before any schema check. -/
theorem unsupported_version_rejected_witness :
    taskConfigInit (fun _ _ => none) (fun _ => none)
      (some [("version", JVal.num 99)]) =
      ([InitEvent.versionDetermined
          (_get_version [("version", JVal.num 99)])],
       Except.error (PyError.invalidTask
         ("Task configuration version " ++
          pyStr (_get_version [("version", JVal.num 99)]) ++
          " is not supported. Supported versions: 1, 2"))) :=
  unsupported_version_rejected (fun _ _ => none) (fun _ => none)
    [("version", JVal.num 99)] (by decide) (by decide)

end Rally
